import Mathlib

/-!
Verification of the C-Bus ↔ MQTT bridge state-synchronization core.

Shallow embedding of:
- `src/cbus/state_manager.py` (`DeviceState`, `StateManager`)
- `src/cbus/interface.py` (`CBusInterface._process_group_response`, hex
  encoding as in `set_group_level`, `disconnect`)
- `src/mqtt/bridge.py` (`MQTTBridge._handle_device_command` payload parsing)

Timestamps (Python `time.time()` floats) are modelled as `Int`; each
operation that reads the clock takes the current time `now` as an explicit
argument.  Python ints are unbounded, so levels are `Int`.  The device
table (a Python dict keyed by group, iterated in insertion order) is an
association list; in-place mutation of a record is a keyed map over the
list, dict insertion is an append.
-/

namespace MQTTWD

/-- Source of a state change (`StateSource` enum in state_manager.py). -/
inductive StateSource : Type
  | cbus
  | mqtt
  | poll
  | unknown
deriving DecidableEq

/-- The `DeviceState` dataclass of state_manager.py. -/
structure DeviceState : Type where
  group : Int
  level : Int
  state : Bool
  last_updated : Int
  last_source : StateSource
  last_mqtt_update : Int
  last_cbus_update : Int
  pending_mqtt_update : Bool
  pending_cbus_update : Bool
deriving DecidableEq

/-- Constructing `DeviceState(group=g, level=l, state=b)` with the dataclass
defaults: `last_updated` is the construction time, `last_source=UNKNOWN`,
both per-source timestamps 0, both pending flags `False`. -/
def mkDeviceState (group level : Int) (state : Bool) (now : Int) : DeviceState :=
  { group := group
    level := level
    state := state
    last_updated := now
    last_source := .unknown
    last_mqtt_update := 0
    last_cbus_update := 0
    pending_mqtt_update := false
    pending_cbus_update := false }

/-- `DeviceState.update`: sets level, recomputes `state = level > 0`,
stamps `last_updated`/`last_source`, and per source records the source
timestamp and clears that source's pending flag. -/
def DeviceState.update (d : DeviceState) (level : Int) (source : StateSource)
    (now : Int) : DeviceState :=
  let base : DeviceState :=
    { d with
        level := level
        state := decide (0 < level)
        last_updated := now
        last_source := source }
  match source with
  | .cbus => { base with last_cbus_update := now, pending_cbus_update := false }
  | .mqtt => { base with last_mqtt_update := now, pending_mqtt_update := false }
  | .poll => base
  | .unknown => base

/-- `DeviceState.is_stale(max_age)` evaluated at time `now`:
`now - last_updated > max_age`. -/
def DeviceState.isStale (d : DeviceState) (maxAge now : Int) : Bool :=
  decide (now - d.last_updated > maxAge)

/-- Notification sent through `mqtt_bridge.publish_state_update`. -/
structure Publish : Type where
  group : Int
  level : Int
  state : Bool
deriving DecidableEq

/-- Commands written to the bus (`set_group_level`, `ramp_group`, and the
per-group level query of `_poll_devices`). -/
inductive BusCmd : Type
  | setLevel (group level : Int)
  | rampLevel (group level rampTime : Int)
  | queryLevel (application : Nat) (group : Int)
deriving DecidableEq

/-- The configuration the StateManager reads once at construction, plus
whether `mqtt_bridge` has been set (publishes happen only when it is). -/
structure Config : Type where
  pollInterval : Int
  application : Nat
  hasBridge : Bool

/-- Mutable StateManager fields the claims are about: the device table,
the conflict counter and the last poll time. -/
structure ManagerState : Type where
  device_states : List (Int × DeviceState)
  sync_conflicts : Nat
  last_poll_time : Int
deriving DecidableEq

/-- First-match association-list lookup (Python `dict[group]` /
`group in dict`). -/
def lookupG : List (Int × DeviceState) → Int → Option DeviceState
  | [], _ => none
  | p :: t, g => if p.1 = g then some p.2 else lookupG t g

/-- Replacing the record stored under a key, in place (Python mutates the
dict's value object, keeping its position). -/
def setEntry (l : List (Int × DeviceState)) (g : Int) (d : DeviceState) :
    List (Int × DeviceState) :=
  l.map fun p => if p.1 = g then (g, d) else p

/-- `if group in self.device_states: self.device_states[group].pending_cbus_update = True`. -/
def setPendingCbus (l : List (Int × DeviceState)) (g : Int) :
    List (Int × DeviceState) :=
  l.map fun p => if p.1 = g then (p.1, { p.2 with pending_cbus_update := true }) else p

/-- `StateManager._update_device_state(group, level, source)`: get-or-create
the record, remember old level/state, run `DeviceState.update`, and when
level or on/off changed with source CBUS and an attached bridge, publish
the new value. -/
def updateDeviceState (cfg : Config) (s : ManagerState) (group level : Int)
    (source : StateSource) (now : Int) : ManagerState × List Publish :=
  let old : DeviceState :=
    match lookupG s.device_states group with
    | some d => d
    | none => mkDeviceState group 0 false now
  let table : List (Int × DeviceState) :=
    match lookupG s.device_states group with
    | some _ => s.device_states
    | none => s.device_states ++ [(group, mkDeviceState group 0 false now)]
  let nd : DeviceState := old.update level source now
  let pubs : List Publish :=
    if (old.level ≠ level ∨ old.state ≠ nd.state) ∧
        source = StateSource.cbus ∧ cfg.hasBridge = true
    then [⟨group, level, nd.state⟩] else []
  ({ s with device_states := setEntry table group nd }, pubs)

/-- The spec's `apply_bus_event`: a `group_state` event delivered through
`_on_cbus_event`, i.e. `_update_device_state` with source CBUS. -/
def applyBusEvent (cfg : Config) (s : ManagerState) (group level now : Int) :
    ManagerState × List Publish :=
  updateDeviceState cfg s group level .cbus now

/-- `StateManager.handle_mqtt_command` (the spec's `apply_hub_command`):
send the bus set-level command, mark the group pending-bus iff it is
already tracked, then update local state optimistically with source MQTT. -/
def handleMqttCommand (cfg : Config) (s : ManagerState) (group level now : Int) :
    ManagerState × List Publish × List BusCmd :=
  let s1 : ManagerState := { s with device_states := setPendingCbus s.device_states group }
  let r := updateDeviceState cfg s1 group level .mqtt now
  (r.1, r.2, [BusCmd.setLevel group level])

/-- `StateManager.handle_mqtt_ramp`: send the ramp command and mark the
group pending-bus iff tracked; no local state update. -/
def handleMqttRamp (s : ManagerState) (group level rampTime : Int) :
    ManagerState × List BusCmd :=
  ({ s with device_states := setPendingCbus s.device_states group },
   [if rampTime > 0 then BusCmd.rampLevel group level rampTime
    else BusCmd.setLevel group level])

/-- `StateManager._should_poll` at time `now`. -/
def shouldPoll (cfg : Config) (s : ManagerState) (now : Int) : Bool :=
  if now - s.last_poll_time < cfg.pollInterval then false
  else if !(s.device_states.any fun p =>
      decide (p.2.last_cbus_update > now - cfg.pollInterval)) then true
  else s.device_states.any fun p => p.2.isStale (cfg.pollInterval * 2) now

/-- `StateManager._poll_devices`: one level query per tracked group, then
stamp `last_poll_time`. -/
def pollDevices (cfg : Config) (s : ManagerState) (now : Int) :
    ManagerState × List BusCmd :=
  ({ s with last_poll_time := now },
   s.device_states.map fun p => BusCmd.queryLevel cfg.application p.1)

/-- One iteration of `_poll_loop`: poll all devices iff `_should_poll`. -/
def pollTick (cfg : Config) (s : ManagerState) (now : Int) :
    ManagerState × List BusCmd :=
  if shouldPoll cfg s now then pollDevices cfg s now else (s, [])

/-- The conflict predicate of `_check_sync_conflicts`. -/
def conflictFlag (d : DeviceState) : Bool :=
  d.pending_mqtt_update && d.pending_cbus_update

/-- `StateManager._check_sync_conflicts`: for every record with both
pending flags set, clear `pending_mqtt_update`, count one conflict, and
(bridge attached) re-publish the record's current level and state. -/
def checkSyncConflicts (cfg : Config) (s : ManagerState) :
    ManagerState × List Publish :=
  let conflicted := s.device_states.filter fun p => conflictFlag p.2
  ({ s with
      device_states := s.device_states.map fun p =>
        if conflictFlag p.2 then (p.1, { p.2 with pending_mqtt_update := false }) else p
      sync_conflicts := s.sync_conflicts + conflicted.length },
   if cfg.hasBridge then conflicted.map fun p => ⟨p.1, p.2.level, p.2.state⟩ else [])

/-- `StateManager._cleanup_stale_states` at time `now`: drop every record
stale for more than 3600 seconds. -/
def cleanupStaleStates (s : ManagerState) (now : Int) : ManagerState :=
  { s with device_states := s.device_states.filter fun p => !(p.2.isStale 3600 now) }

/-- The device-creation loop of `StateManager.initialize`: for each
configured group not yet tracked, add `DeviceState(group, level=0, state=False)`. -/
def initStates (groups : List Int) (now : Int)
    (table : List (Int × DeviceState)) : List (Int × DeviceState) :=
  match groups with
  | [] => table
  | g :: rest =>
      initStates rest now
        (match lookupG table g with
         | some _ => table
         | none => table ++ [(g, mkDeviceState g 0 false now)])

/-- Manager state right after construction and `initialize`: counters zero,
table seeded from the configured device list. -/
def initialManagerState (groups : List Int) (now : Int) : ManagerState :=
  { device_states := initStates groups now []
    sync_conflicts := 0
    last_poll_time := 0 }

/-- One state-mutating public operation of the StateManager.  The read-only
operations (`get_device_state`, `get_all_states`) do not change the state
and need no transition. -/
inductive Step (cfg : Config) : ManagerState → ManagerState → Prop
  | busEvent (s : ManagerState) (group level now : Int) :
      Step cfg s (applyBusEvent cfg s group level now).1
  | hubCommand (s : ManagerState) (group level now : Int) :
      Step cfg s (handleMqttCommand cfg s group level now).1
  | hubRamp (s : ManagerState) (group level rampTime : Int) :
      Step cfg s (handleMqttRamp s group level rampTime).1
  | pollStep (s : ManagerState) (now : Int) :
      Step cfg s (pollTick cfg s now).1
  | conflictStep (s : ManagerState) :
      Step cfg s (checkSyncConflicts cfg s).1
  | cleanupStep (s : ManagerState) (now : Int) :
      Step cfg s (cleanupStaleStates s now)

/-- Uppercase hex digit for a nibble, as produced by Python `"%02X"`:
48 is the code point of `0`, 65 that of `A`. -/
def hexDigitChar (n : Nat) : Char :=
  if n < 10 then Char.ofNat (48 + n) else Char.ofNat (55 + n)

/-- Python `f"{n:02X}"` for `n ≤ 255`: exactly two uppercase hex digits,
zero-padded — the formatting used by `CBusInterface.set_group_level` and
the poll query. -/
def hex2 (n : Nat) : List Char :=
  [hexDigitChar (n / 16), hexDigitChar (n % 16)]

/-- Value of one hex digit as accepted by Python `int(s, 16)`: decimal
digits, and letters of either case with values 10 to 15. -/
def hexVal (c : Char) : Option Nat :=
  if '0' ≤ c ∧ c ≤ '9' then some (c.toNat - 48)
  else if 'A' ≤ c ∧ c ≤ 'F' then some (c.toNat - 55)
  else if 'a' ≤ c ∧ c ≤ 'f' then some (c.toNat - 87)
  else none

/-- Python `int(two_chars, 16)`; `none` models the `ValueError` that
`_process_group_response` catches (yielding no event). -/
def parseHex2 (c1 c2 : Char) : Option Nat :=
  match hexVal c1, hexVal c2 with
  | some h, some l => some (16 * h + l)
  | _, _ => none

/-- The `group_state` event dict built by `_process_group_response`. -/
structure GroupStateEvent : Type where
  application : Nat
  group : Nat
  level : Nat
  state : Bool
deriving DecidableEq

/-- `CBusInterface._process_group_response` on a line (list of events it
emits): needs length ≥ 7, slices chars 1-2/3-4/5-6 as hex application,
group, level; any hex failure is caught and drops the line; the event is
emitted only when the application matches the configured one. -/
def processGroupResponse (confApp : Nat) (line : List Char) : List GroupStateEvent :=
  match line with
  | _c0 :: a1 :: a2 :: g1 :: g2 :: l1 :: l2 :: _rest =>
      match parseHex2 a1 a2, parseHex2 g1 g2, parseHex2 l1 l2 with
      | some app, some grp, some lvl =>
          if app = confApp then [⟨app, grp, lvl, decide (0 < lvl)⟩] else []
      | _, _, _ => []
  | _ => []

/-- The group-state line `'g' ++ hex2 app ++ hex2 group ++ hex2 level`. -/
def encodeGroupState (app grp lvl : Nat) : List Char :=
  'g' :: (hex2 app ++ hex2 grp ++ hex2 lvl)

/-- The payload shapes `MQTTBridge._handle_device_command` distinguishes:
a lowercase on-word (`on`/`true`/`1`), an off-word (`off`/`false`/`0`), a
payload `int()` accepts, a JSON object (with its optional integer
`brightness` and `level` fields), or anything else (rejected). -/
inductive CommandPayload : Type
  | onWord
  | offWord
  | numeric (n : Int)
  | jsonPayload (brightness level : Option Int)
  | invalid
deriving DecidableEq

/-- The level `_handle_device_command` computes and forwards to
`handle_mqtt_command` (`none` = the payload is rejected, nothing is
forwarded): on-words give 255, off-words 0, bare numerics are clamped with
`max(0, min(255, level))`, JSON uses
`data.get('brightness', data.get('level', 0))` with no clamping. -/
def parseCommandLevel : CommandPayload → Option Int
  | .onWord => some 255
  | .offWord => some 0
  | .numeric n => some (max 0 (min 255 n))
  | .jsonPayload b l => some (b.getD (l.getD 0))
  | .invalid => none

/-- The `CBusInterface` connection fields `disconnect` touches:
the `connected` flag and whether `connection` is non-`None`. -/
structure IfaceState : Type where
  connected : Bool
  hasConnection : Bool
deriving DecidableEq

/-- `CBusInterface.disconnect`, with the behaviour of the underlying
`close()` given by `closeFails`.  An `Except.error` result would model an
exception escaping to the caller; the `try/except` in the source catches a
failing close after which the assignments `connection = None` /
`connected = False` (inside the `try`) are skipped. -/
def disconnect (closeFails : Bool) (s : IfaceState) : Except String IfaceState :=
  if !s.connected then Except.ok s
  else if s.hasConnection && closeFails then Except.ok s
  else Except.ok { connected := false, hasConnection := false }

theorem update_level (d : DeviceState) (lvl : Int) (src : StateSource) (now : Int) :
    (d.update lvl src now).level = lvl := by
  cases src <;> rfl

theorem update_state (d : DeviceState) (lvl : Int) (src : StateSource) (now : Int) :
    (d.update lvl src now).state = decide (0 < lvl) := by
  cases src <;> rfl

theorem update_last_updated (d : DeviceState) (lvl : Int) (src : StateSource) (now : Int) :
    (d.update lvl src now).last_updated = now := by
  cases src <;> rfl

theorem update_last_source (d : DeviceState) (lvl : Int) (src : StateSource) (now : Int) :
    (d.update lvl src now).last_source = src := by
  cases src <;> rfl

theorem update_cbus_pending_cbus (d : DeviceState) (lvl now : Int) :
    (d.update lvl .cbus now).pending_cbus_update = false := rfl

theorem update_cbus_pending_mqtt (d : DeviceState) (lvl now : Int) :
    (d.update lvl .cbus now).pending_mqtt_update = d.pending_mqtt_update := rfl

theorem update_cbus_last_cbus (d : DeviceState) (lvl now : Int) :
    (d.update lvl .cbus now).last_cbus_update = now := rfl

theorem update_mqtt_pending_cbus (d : DeviceState) (lvl now : Int) :
    (d.update lvl .mqtt now).pending_cbus_update = d.pending_cbus_update := rfl

theorem update_mqtt_pending_mqtt (d : DeviceState) (lvl now : Int) :
    (d.update lvl .mqtt now).pending_mqtt_update = false := rfl

theorem update_pending_mqtt_of_false (d : DeviceState) (lvl : Int) (src : StateSource)
    (now : Int) (h : d.pending_mqtt_update = false) :
    (d.update lvl src now).pending_mqtt_update = false := by
  cases src <;> simp [DeviceState.update, h]

theorem lookupG_setEntry_self (l : List (Int × DeviceState)) (g : Int) (d : DeviceState) :
    lookupG (setEntry l g d) g = (lookupG l g).map fun _ => d := by
  induction l with
  | nil => rfl
  | cons p t ih =>
      by_cases h : p.1 = g
      · simp [setEntry, lookupG, h]
      · simpa [setEntry, lookupG, h] using ih

theorem lookupG_append_single (l : List (Int × DeviceState)) (g : Int) (d : DeviceState)
    (h : lookupG l g = none) : lookupG (l ++ [(g, d)]) g = some d := by
  induction l with
  | nil => simp [lookupG]
  | cons p t ih =>
      rw [show lookupG (p :: t) g = if p.1 = g then some p.2 else lookupG t g from rfl] at h
      rw [List.cons_append,
        show lookupG (p :: (t ++ [(g, d)])) g =
          if p.1 = g then some p.2 else lookupG (t ++ [(g, d)]) g from rfl]
      by_cases hp : p.1 = g
      · rw [if_pos hp] at h
        exact absurd h (by simp)
      · rw [if_neg hp] at h
        rw [if_neg hp]
        exact ih h

theorem lookupG_setPendingCbus_self (l : List (Int × DeviceState)) (g : Int) :
    lookupG (setPendingCbus l g) g =
      (lookupG l g).map fun d => { d with pending_cbus_update := true } := by
  induction l with
  | nil => rfl
  | cons p t ih =>
      by_cases h : p.1 = g
      · simp [setPendingCbus, lookupG, h]
      · simpa [setPendingCbus, lookupG, h] using ih

theorem lookupG_mem {l : List (Int × DeviceState)} {g : Int} {d : DeviceState}
    (h : lookupG l g = some d) : (g, d) ∈ l := by
  induction l with
  | nil => simp [lookupG] at h
  | cons p t ih =>
      obtain ⟨p1, p2⟩ := p
      by_cases hp : p1 = g
      · simp only [lookupG, hp, if_true, Option.some.injEq] at h
        rw [← hp, ← h]
        exact List.mem_cons_self _ _
      · simp only [lookupG, hp, if_false] at h
        exact List.mem_cons_of_mem _ (ih h)

theorem lookupG_updateDeviceState_self (cfg : Config) (s : ManagerState)
    (group lvl : Int) (src : StateSource) (now : Int) :
    lookupG (updateDeviceState cfg s group lvl src now).1.device_states group =
      some ((match lookupG s.device_states group with
             | some d => d
             | none => mkDeviceState group 0 false now).update lvl src now) := by
  cases h : lookupG s.device_states group with
  | some d =>
      simp only [updateDeviceState, h, lookupG_setEntry_self]
      rfl
  | none =>
      simp only [updateDeviceState, h, lookupG_setEntry_self,
        lookupG_append_single _ _ _ h]
      rfl

theorem updateDeviceState_pubs_nil (cfg : Config) (s : ManagerState)
    (group lvl : Int) (src : StateSource) (now : Int) (d : DeviceState)
    (h : lookupG s.device_states group = some d)
    (hl : d.level = lvl) (hs : d.state = decide (0 < lvl)) :
    (updateDeviceState cfg s group lvl src now).2 = [] := by
  simp only [updateDeviceState, h]
  rw [if_neg]
  rintro ⟨hor, -⟩
  rcases hor with hne | hne
  · exact hne hl
  · exact hne (hs.trans (update_state d lvl src now).symm)

/-- Every record of the device table satisfies `P`. -/
def EntryInv (P : DeviceState → Prop) (l : List (Int × DeviceState)) : Prop :=
  ∀ p ∈ l, P p.2

theorem entryInv_setEntry {P : DeviceState → Prop} {l : List (Int × DeviceState)}
    (g : Int) {d : DeviceState} (h : EntryInv P l) (hd : P d) :
    EntryInv P (setEntry l g d) := by
  intro p hp
  simp only [setEntry, List.mem_map] at hp
  obtain ⟨q, hq, hfq⟩ := hp
  by_cases hqg : q.1 = g
  · rw [if_pos hqg] at hfq
    rw [← hfq]
    exact hd
  · rw [if_neg hqg] at hfq
    rw [← hfq]
    exact h q hq

theorem entryInv_append_single {P : DeviceState → Prop} {l : List (Int × DeviceState)}
    (g : Int) {d : DeviceState} (h : EntryInv P l) (hd : P d) :
    EntryInv P (l ++ [(g, d)]) := by
  intro p hp
  rcases List.mem_append.mp hp with hl | hr
  · exact h p hl
  · rw [List.mem_singleton.mp hr]
    exact hd

theorem entryInv_setPendingCbus {P : DeviceState → Prop} {l : List (Int × DeviceState)}
    (g : Int) (h : EntryInv P l)
    (hcb : ∀ d, P d → P { d with pending_cbus_update := true }) :
    EntryInv P (setPendingCbus l g) := by
  intro p hp
  simp only [setPendingCbus, List.mem_map] at hp
  obtain ⟨q, hq, hfq⟩ := hp
  by_cases hqg : q.1 = g
  · rw [if_pos hqg] at hfq
    rw [← hfq]
    exact hcb _ (h q hq)
  · rw [if_neg hqg] at hfq
    rw [← hfq]
    exact h q hq

theorem entryInv_updateDeviceState {P : DeviceState → Prop} (cfg : Config)
    {s : ManagerState} (group lvl : Int) (src : StateSource) (now : Int)
    (hupd : ∀ d l2 s2 n2, P d → P (DeviceState.update d l2 s2 n2))
    (hmk : ∀ g2 n2, P (mkDeviceState g2 0 false n2))
    (h : EntryInv P s.device_states) :
    EntryInv P (updateDeviceState cfg s group lvl src now).1.device_states := by
  cases hl : lookupG s.device_states group with
  | some d =>
      simp only [updateDeviceState, hl]
      exact entryInv_setEntry group h (hupd _ _ _ _ (h _ (lookupG_mem hl)))
  | none =>
      simp only [updateDeviceState, hl]
      exact entryInv_setEntry group (entryInv_append_single group h (hmk group now))
        (hupd _ _ _ _ (hmk group now))

theorem entryInv_checkSyncConflicts {P : DeviceState → Prop} (cfg : Config)
    {s : ManagerState}
    (hcm : ∀ d, P d → P { d with pending_mqtt_update := false })
    (h : EntryInv P s.device_states) :
    EntryInv P (checkSyncConflicts cfg s).1.device_states := by
  intro p hp
  simp only [checkSyncConflicts, List.mem_map] at hp
  obtain ⟨q, hq, hfq⟩ := hp
  by_cases hc : conflictFlag q.2 = true
  · rw [if_pos hc] at hfq
    rw [← hfq]
    exact hcm _ (h q hq)
  · rw [if_neg hc] at hfq
    rw [← hfq]
    exact h q hq

theorem entryInv_cleanup {P : DeviceState → Prop} {s : ManagerState} (now : Int)
    (h : EntryInv P s.device_states) :
    EntryInv P (cleanupStaleStates s now).device_states := by
  intro p hp
  exact h p (List.mem_filter.mp hp).1

theorem pollTick_device_states (cfg : Config) (s : ManagerState) (now : Int) :
    (pollTick cfg s now).1.device_states = s.device_states := by
  unfold pollTick
  split <;> rfl

theorem pollTick_sync_conflicts (cfg : Config) (s : ManagerState) (now : Int) :
    (pollTick cfg s now).1.sync_conflicts = s.sync_conflicts := by
  unfold pollTick
  split <;> rfl

theorem entryInv_step {P : DeviceState → Prop} {cfg : Config}
    {s s2 : ManagerState}
    (hupd : ∀ d l2 s3 n2, P d → P (DeviceState.update d l2 s3 n2))
    (hmk : ∀ g2 n2, P (mkDeviceState g2 0 false n2))
    (hcb : ∀ d, P d → P { d with pending_cbus_update := true })
    (hcm : ∀ d, P d → P { d with pending_mqtt_update := false })
    (hstep : Step cfg s s2) (h : EntryInv P s.device_states) :
    EntryInv P s2.device_states := by
  cases hstep with
  | busEvent group lvl now =>
      exact entryInv_updateDeviceState cfg group lvl .cbus now hupd hmk h
  | hubCommand group lvl now =>
      exact entryInv_updateDeviceState cfg group lvl .mqtt now hupd hmk
        (entryInv_setPendingCbus group h hcb)
  | hubRamp group lvl rampTime =>
      exact entryInv_setPendingCbus group h hcb
  | pollStep now =>
      rw [pollTick_device_states]
      exact h
  | conflictStep =>
      exact entryInv_checkSyncConflicts cfg hcm h
  | cleanupStep now =>
      exact entryInv_cleanup now h

theorem entryInv_initStates {P : DeviceState → Prop}
    (hmk : ∀ g2 n2, P (mkDeviceState g2 0 false n2))
    (groups : List Int) (now : Int) (table : List (Int × DeviceState))
    (h : EntryInv P table) : EntryInv P (initStates groups now table) := by
  induction groups generalizing table with
  | nil => exact h
  | cons g rest ih =>
      cases hl : lookupG table g with
      | some d =>
          simp only [initStates, hl]
          exact ih _ h
      | none =>
          simp only [initStates, hl]
          exact ih _ (entryInv_append_single g h (hmk g now))

theorem filter_eq_nil_of {α : Type} (l : List α) (p : α → Bool)
    (h : ∀ a ∈ l, p a = false) : l.filter p = [] := by
  induction l with
  | nil => rfl
  | cons x t ih =>
      rw [List.filter_cons, h x (List.mem_cons_self _ _)]
      exact ih fun a ha => h a (List.mem_cons_of_mem _ ha)

theorem map_eq_self_of {α : Type} (l : List α) (f : α → α)
    (h : ∀ a ∈ l, f a = a) : l.map f = l := by
  induction l with
  | nil => rfl
  | cons x t ih =>
      rw [List.map_cons, h x (List.mem_cons_self _ _)]
      rw [ih fun a ha => h a (List.mem_cons_of_mem _ ha)]

/-- If no record has `pending_mqtt_update` set, the conflict tick is a
no-op: the table, counter and output are untouched. -/
theorem checkSyncConflicts_of_noPending (cfg : Config) (s : ManagerState)
    (h : ∀ p ∈ s.device_states, p.2.pending_mqtt_update = false) :
    checkSyncConflicts cfg s = (s, []) := by
  have hflag : ∀ p ∈ s.device_states, conflictFlag p.2 = false := by
    intro p hp
    simp [conflictFlag, h p hp]
  have hfil : (s.device_states.filter fun p => conflictFlag p.2) = [] :=
    filter_eq_nil_of _ _ hflag
  have hmap : (s.device_states.map fun p =>
      if conflictFlag p.2 then (p.1, { p.2 with pending_mqtt_update := false }) else p) =
      s.device_states := by
    apply map_eq_self_of
    intro p hp
    rw [if_neg]
    rw [hflag p hp]
    exact Bool.false_ne_true
  simp only [checkSyncConflicts, hfil, hmap, List.length_nil, Nat.add_zero, List.map_nil]
  split <;> rfl

theorem hexVal_hexDigitChar (n : Nat) (h : n < 16) :
    hexVal (hexDigitChar n) = some n := by
  interval_cases n <;> decide

theorem parseHex2_hex2 (n : Nat) (h : n < 256) :
    parseHex2 (hexDigitChar (n / 16)) (hexDigitChar (n % 16)) = some n := by
  have h1 : n / 16 < 16 := by omega
  have h2 : n % 16 < 16 := Nat.mod_lt _ (by omega)
  rw [parseHex2, hexVal_hexDigitChar _ h1, hexVal_hexDigitChar _ h2]
  show some (16 * (n / 16) + n % 16) = some n
  rw [Nat.div_add_mod]

/-- C3: decoding the encoded group-state line
`'g' ++ hex2 app ++ hex2 group ++ hex2 level` with the configured
application `confApp` yields exactly one `group_state` event carrying the
encoded application, group and level with `state = (level > 0)` when
`confApp = app`, and no event when the application differs — for every
application, group and level in `[0, 255]`. -/
theorem decode_encode_group_state (confApp app grp lvl : Nat)
    (ha : app < 256) (hg : grp < 256) (hl : lvl < 256) :
    (confApp = app →
      processGroupResponse confApp (encodeGroupState app grp lvl) =
        [⟨app, grp, lvl, decide (0 < lvl)⟩]) ∧
    (confApp ≠ app →
      processGroupResponse confApp (encodeGroupState app grp lvl) = []) := by
  have hline : encodeGroupState app grp lvl =
      'g' :: hexDigitChar (app / 16) :: hexDigitChar (app % 16) ::
      hexDigitChar (grp / 16) :: hexDigitChar (grp % 16) ::
      hexDigitChar (lvl / 16) :: hexDigitChar (lvl % 16) :: [] := rfl
  rw [hline]
  simp only [processGroupResponse, parseHex2_hex2 app ha, parseHex2_hex2 grp hg,
    parseHex2_hex2 lvl hl]
  constructor
  · intro hC
    rw [if_pos hC.symm]
  · intro hC
    rw [if_neg fun he => hC he.symm]

/-- C3 witness: the spec's end-to-end example — `g381564` decodes with
configured application 56 to the event `{application 56, group 21,
level 100, state true}`, does not decode under application 57, and the
encoder really produces the line `g381564`. -/
theorem decode_encode_group_state_witness :
    processGroupResponse 56 (encodeGroupState 56 21 100) =
      [⟨56, 21, 100, true⟩] ∧
    processGroupResponse 57 (encodeGroupState 56 21 100) = [] ∧
    encodeGroupState 56 21 100 = ['g', '3', '8', '1', '5', '6', '4'] :=
  ⟨(decode_encode_group_state 56 56 21 100 (by decide) (by decide) (by decide)).1 rfl,
   (decode_encode_group_state 57 56 21 100 (by decide) (by decide) (by decide)).2
     (by decide),
   by decide⟩

/-- C1 counterexample: for a tracked group whose record has
`pending_mqtt_update = true`, `apply_bus_event` leaves
`pending_mqtt_update` still `true` (only `pending_cbus_update` is
cleared), refuting the claim that both pending flags are false after the
call regardless of their prior values. -/
theorem bus_event_pending_counterexample :
    (lookupG (applyBusEvent ⟨30, 56, true⟩
        ⟨[(5, ⟨5, 100, true, 0, .unknown, 0, 0, true, false⟩)], 0, 0⟩
        5 200 10).1.device_states 5).map
      (fun d => (d.pending_mqtt_update, d.pending_cbus_update)) =
      some (true, false) := by
  decide

/-- C1 (amended): after `apply_bus_event` the group's record exists with
`pending_cbus_update = false` and `last_cbus_update` stamped, while
`pending_mqtt_update` keeps whatever value it had before the call (false
for a freshly created record); the call does not clear the hub-pending
flag. -/
theorem bus_event_clears_bus_pending (cfg : Config) (s : ManagerState)
    (g lvl now : Int) :
    ∃ d2, lookupG (applyBusEvent cfg s g lvl now).1.device_states g = some d2 ∧
      d2.pending_cbus_update = false ∧
      d2.last_cbus_update = now ∧
      d2.pending_mqtt_update =
        (match lookupG s.device_states g with
         | some d => d.pending_mqtt_update
         | none => false) := by
  refine ⟨_, lookupG_updateDeviceState_self cfg s g lvl .cbus now,
    update_cbus_pending_cbus _ _ _, update_cbus_last_cbus _ _ _, ?_⟩
  cases h : lookupG s.device_states g with
  | some d => exact update_cbus_pending_mqtt _ _ _
  | none => exact update_cbus_pending_mqtt _ _ _

/-- C7: applying `apply_bus_event` twice in a row with the same level
leaves level and on/off state unchanged by the second call while stamping
`last_updated` with the second call's time, and the second call publishes
no state-changed notification. -/
theorem bus_event_idempotent (cfg : Config) (s : ManagerState)
    (g lvl t1 t2 : Int) :
    (applyBusEvent cfg (applyBusEvent cfg s g lvl t1).1 g lvl t2).2 = [] ∧
    ∃ d1 d2,
      lookupG (applyBusEvent cfg s g lvl t1).1.device_states g = some d1 ∧
      lookupG (applyBusEvent cfg (applyBusEvent cfg s g lvl t1).1
        g lvl t2).1.device_states g = some d2 ∧
      d2.level = d1.level ∧ d2.state = d1.state ∧ d2.last_updated = t2 := by
  obtain ⟨d1, h1, hl1, hs1⟩ :
      ∃ d1, lookupG (applyBusEvent cfg s g lvl t1).1.device_states g = some d1 ∧
        d1.level = lvl ∧ d1.state = decide (0 < lvl) :=
    ⟨_, lookupG_updateDeviceState_self cfg s g lvl .cbus t1,
      update_level _ _ _ _, update_state _ _ _ _⟩
  obtain ⟨d2, h2, hl2, hs2, hu2⟩ :
      ∃ d2, lookupG (applyBusEvent cfg (applyBusEvent cfg s g lvl t1).1
          g lvl t2).1.device_states g = some d2 ∧
        d2.level = lvl ∧ d2.state = decide (0 < lvl) ∧ d2.last_updated = t2 :=
    ⟨_, lookupG_updateDeviceState_self cfg (applyBusEvent cfg s g lvl t1).1
        g lvl .cbus t2,
      update_level _ _ _ _, update_state _ _ _ _, update_last_updated _ _ _ _⟩
  refine ⟨updateDeviceState_pubs_nil cfg _ g lvl .cbus t2 d1 h1 hl1 hs1,
    d1, d2, h1, h2, ?_, ?_, hu2⟩
  · rw [hl2, hl1]
  · rw [hs2, hs1]

/-- C4 counterexample: on an empty state table, `handle_mqtt_command`
creates the group's record but leaves `pending_cbus_update = false` (the
`if group in self.device_states` guard runs before the record exists),
refuting the claim that the pending-bus flag is true even when the group
had no DeviceState before the call. -/
theorem hub_command_new_group_counterexample :
    (lookupG (handleMqttCommand ⟨30, 56, true⟩ ⟨[], 0, 0⟩
        5 200 7).1.device_states 5).map
      (fun d => (d.level, d.last_source, d.pending_cbus_update)) =
      some (200, StateSource.mqtt, false) := by
  decide

/-- C4 (amended): `handle_mqtt_command` always issues the bus set-level
command, and afterwards the group's record exists with the commanded
level and `last_source = MQTT`; `pending_cbus_update` is true exactly when
the group already had a record before the call (false for a freshly
created one). -/
theorem hub_command_optimistic (cfg : Config) (s : ManagerState)
    (g lvl now : Int) :
    (handleMqttCommand cfg s g lvl now).2.2 = [BusCmd.setLevel g lvl] ∧
    ∃ d2, lookupG (handleMqttCommand cfg s g lvl now).1.device_states g = some d2 ∧
      d2.level = lvl ∧ d2.last_source = StateSource.mqtt ∧
      d2.pending_cbus_update = (lookupG s.device_states g).isSome := by
  refine ⟨rfl, ?_⟩
  have hmain : lookupG (handleMqttCommand cfg s g lvl now).1.device_states g =
      some ((match lookupG (setPendingCbus s.device_states g) g with
             | some d => d
             | none => mkDeviceState g 0 false now).update lvl .mqtt now) :=
    lookupG_updateDeviceState_self cfg
      { s with device_states := setPendingCbus s.device_states g } g lvl .mqtt now
  rw [lookupG_setPendingCbus_self] at hmain
  cases h : lookupG s.device_states g with
  | some d =>
      rw [h] at hmain
      have hmain2 : lookupG (handleMqttCommand cfg s g lvl now).1.device_states g =
          some (DeviceState.update { d with pending_cbus_update := true } lvl .mqtt now) :=
        hmain
      refine ⟨_, hmain2, update_level _ _ _ _, update_last_source _ _ _ _, ?_⟩
      rw [update_mqtt_pending_cbus]
      rfl
  | none =>
      rw [h] at hmain
      have hmain2 : lookupG (handleMqttCommand cfg s g lvl now).1.device_states g =
          some (DeviceState.update (mkDeviceState g 0 false now) lvl .mqtt now) :=
        hmain
      refine ⟨_, hmain2, update_level _ _ _ _, update_last_source _ _ _ _, ?_⟩
      rw [update_mqtt_pending_cbus]
      rfl

/-- C2: one run of the conflict tick, with a bridge attached: every group
whose record has both pending flags set gets `pending_mqtt_update`
cleared (the rest of the record untouched) and its current level and
on/off state re-published; a group without both flags set keeps its
record unchanged; the conflict counter grows by exactly the number of
conflicted groups (one per conflicted group). -/
theorem conflict_tick_bus_wins (cfg : Config) (s : ManagerState) (g : Int)
    (d : DeviceState) (hb : cfg.hasBridge = true)
    (hmem : (g, d) ∈ s.device_states) :
    (d.pending_mqtt_update = true → d.pending_cbus_update = true →
      (g, { d with pending_mqtt_update := false }) ∈
        (checkSyncConflicts cfg s).1.device_states ∧
      (⟨g, d.level, d.state⟩ : Publish) ∈ (checkSyncConflicts cfg s).2) ∧
    (¬(d.pending_mqtt_update = true ∧ d.pending_cbus_update = true) →
      (g, d) ∈ (checkSyncConflicts cfg s).1.device_states) ∧
    (checkSyncConflicts cfg s).1.sync_conflicts =
      s.sync_conflicts + (s.device_states.countP fun p =>
        p.2.pending_mqtt_update && p.2.pending_cbus_update) := by
  refine ⟨?_, ?_, ?_⟩
  · intro hm hc
    have hflag : conflictFlag d = true := by simp [conflictFlag, hm, hc]
    constructor
    · simp only [checkSyncConflicts]
      refine List.mem_map.mpr ⟨(g, d), hmem, ?_⟩
      simp [hflag]
    · have hfil : (g, d) ∈ s.device_states.filter fun p => conflictFlag p.2 :=
        List.mem_filter.mpr ⟨hmem, hflag⟩
      simp only [checkSyncConflicts, hb, if_true]
      exact List.mem_map.mpr ⟨(g, d), hfil, rfl⟩
  · intro hnot
    have hflag : conflictFlag d = false := by
      cases hm : d.pending_mqtt_update with
      | false => simp [conflictFlag, hm]
      | true =>
          cases hc : d.pending_cbus_update with
          | false => simp [conflictFlag, hc]
          | true => exact absurd ⟨hm, hc⟩ hnot
    simp only [checkSyncConflicts]
    refine List.mem_map.mpr ⟨(g, d), hmem, ?_⟩
    simp [hflag]
  · simp only [checkSyncConflicts]
    rw [List.countP_eq_length_filter]
    simp only [conflictFlag]

/-- C2 witness: a table with one record carrying both pending flags — the
tick clears the hub-pending flag, republishes level 200 / on, and counts
exactly one conflict. -/
theorem conflict_tick_bus_wins_witness :
    (5, (⟨5, 200, true, 0, .mqtt, 0, 0, false, true⟩ : DeviceState)) ∈
      (checkSyncConflicts ⟨30, 56, true⟩
        ⟨[(5, ⟨5, 200, true, 0, .mqtt, 0, 0, true, true⟩)], 0, 0⟩).1.device_states ∧
    (⟨5, 200, true⟩ : Publish) ∈
      (checkSyncConflicts ⟨30, 56, true⟩
        ⟨[(5, ⟨5, 200, true, 0, .mqtt, 0, 0, true, true⟩)], 0, 0⟩).2 ∧
    (checkSyncConflicts ⟨30, 56, true⟩
        ⟨[(5, ⟨5, 200, true, 0, .mqtt, 0, 0, true, true⟩)], 0, 0⟩).1.sync_conflicts =
      0 + ([(5, (⟨5, 200, true, 0, .mqtt, 0, 0, true, true⟩ : DeviceState))].countP
        fun p => p.2.pending_mqtt_update && p.2.pending_cbus_update) := by
  have h := conflict_tick_bus_wins ⟨30, 56, true⟩
    ⟨[(5, ⟨5, 200, true, 0, .mqtt, 0, 0, true, true⟩)], 0, 0⟩ 5
    ⟨5, 200, true, 0, .mqtt, 0, 0, true, true⟩ rfl (by decide)
  exact ⟨(h.1 rfl rfl).1, (h.1 rfl rfl).2, h.2.2⟩

/-- C5: in every manager state reachable from an initialized state by the
state-mutating public operations, every record satisfies the derived-state
invariant `state = (level > 0)`. -/
theorem state_matches_level_invariant (cfg : Config) (groups : List Int)
    (now0 : Int) (s : ManagerState)
    (h : Relation.ReflTransGen (Step cfg) (initialManagerState groups now0) s) :
    ∀ p ∈ s.device_states, p.2.state = decide (0 < p.2.level) := by
  induction h with
  | refl =>
      exact @entryInv_initStates (fun d => d.state = decide (0 < d.level))
        (fun g2 n2 => rfl) groups now0 []
        (fun p hp => absurd hp (List.not_mem_nil p))
  | tail h1 h2 ih =>
      exact @entryInv_step (fun d => d.state = decide (0 < d.level)) cfg _ _
        (fun d l2 s3 n2 _ => by
          show (d.update l2 s3 n2).state = decide (0 < (d.update l2 s3 n2).level)
          rw [update_state, update_level])
        (fun g2 n2 => rfl) (fun d hd => hd) (fun d hd => hd) h2 ih

/-- C5 witness: the record created for group 7 at initialization, in the
initial (reachable) state, satisfies `state = (level > 0)`. -/
theorem state_matches_level_invariant_witness :
    (mkDeviceState 7 0 false 0).state =
      decide (0 < (mkDeviceState 7 0 false 0).level) :=
  state_matches_level_invariant ⟨30, 56, true⟩ [7] 0 (initialManagerState [7] 0)
    Relation.ReflTransGen.refl (7, mkDeviceState 7 0 false 0) (by decide)

/-- C10: no public operation ever sets `pending_mqtt_update`, so in every
reachable manager state every record has `pending_mqtt_update = false`,
the conflict counter is still 0, and the conflict tick is a no-op (its
branch never fires, nothing is republished). -/
theorem pending_hub_write_never_set (cfg : Config) (groups : List Int)
    (now0 : Int) (s : ManagerState)
    (h : Relation.ReflTransGen (Step cfg) (initialManagerState groups now0) s) :
    (∀ p ∈ s.device_states, p.2.pending_mqtt_update = false) ∧
    s.sync_conflicts = 0 ∧
    checkSyncConflicts cfg s = (s, []) := by
  have key : (∀ p ∈ s.device_states, p.2.pending_mqtt_update = false) ∧
      s.sync_conflicts = 0 := by
    induction h with
    | refl =>
        exact ⟨@entryInv_initStates (fun d => d.pending_mqtt_update = false)
          (fun g2 n2 => rfl) groups now0 []
          (fun p hp => absurd hp (List.not_mem_nil p)), rfl⟩
    | tail h1 h2 ih =>
        refine ⟨@entryInv_step (fun d => d.pending_mqtt_update = false) cfg _ _
          (fun d l2 s3 n2 hd => update_pending_mqtt_of_false d l2 s3 n2 hd)
          (fun g2 n2 => rfl) (fun d hd => hd) (fun d _ => rfl) h2 ih.1, ?_⟩
        cases h2 with
        | busEvent group lvl now => exact ih.2
        | hubCommand group lvl now => exact ih.2
        | hubRamp group lvl rampTime => exact ih.2
        | pollStep now =>
            rw [pollTick_sync_conflicts]
            exact ih.2
        | conflictStep =>
            rw [checkSyncConflicts_of_noPending cfg _ ih.1]
            exact ih.2
        | cleanupStep now => exact ih.2
  exact ⟨key.1, key.2, checkSyncConflicts_of_noPending cfg s key.1⟩

/-- C10 witness: after initializing with group 7 and applying one bus
event, the conflict counter is 0 and the conflict tick is a no-op. -/
theorem pending_hub_write_never_set_witness :
    (applyBusEvent ⟨30, 56, true⟩ (initialManagerState [7] 0)
      7 200 5).1.sync_conflicts = 0 ∧
    checkSyncConflicts ⟨30, 56, true⟩
        (applyBusEvent ⟨30, 56, true⟩ (initialManagerState [7] 0) 7 200 5).1 =
      ((applyBusEvent ⟨30, 56, true⟩ (initialManagerState [7] 0) 7 200 5).1, []) :=
  (pending_hub_write_never_set ⟨30, 56, true⟩ [7] 0 _
    (Relation.ReflTransGen.single
      (Step.busEvent (initialManagerState [7] 0) 7 200 5))).2

theorem any_eq_false_of {α : Type} (l : List α) (p : α → Bool)
    (h : ∀ a ∈ l, p a = false) : l.any p = false := by
  induction l with
  | nil => rfl
  | cons x t ih =>
      rw [List.any_cons, h x (List.mem_cons_self _ _),
        ih fun a ha => h a (List.mem_cons_of_mem _ ha)]
      rfl

/-- C6 counterexample: with group 1 fresh (a bus event 10 seconds ago,
within the 30-second poll interval) but group 2 stale, a poll run issues
a query for every tracked group — including group 1 — refuting the
per-device poll-suppression claim. -/
theorem poll_tick_counterexample :
    ((⟨1, 255, true, 90, .cbus, 0, 90, false, false⟩ : DeviceState).last_cbus_update >
      100 - 30) ∧
    (pollTick ⟨30, 56, true⟩
        ⟨[(1, ⟨1, 255, true, 90, .cbus, 0, 90, false, false⟩),
          (2, ⟨2, 0, false, 0, .unknown, 0, 0, false, false⟩)], 0, 0⟩ 100).2 =
      [BusCmd.queryLevel 56 1, BusCmd.queryLevel 56 2] := by
  decide

/-- C6 (amended): poll suppression is all-or-nothing per run — if some
device received a bus event within the last poll interval and no tracked
device is stale (older than twice the interval), a poll run issues no
query at all; otherwise (in particular whenever any device is stale) a
query is issued for every tracked group, fresh ones included. -/
theorem poll_tick_suppression (cfg : Config) (s : ManagerState) (now : Int)
    (hrec : (s.device_states.any fun p =>
      decide (p.2.last_cbus_update > now - cfg.pollInterval)) = true)
    (hfresh : ∀ p ∈ s.device_states,
      p.2.isStale (cfg.pollInterval * 2) now = false) :
    pollTick cfg s now = (s, []) := by
  have hstale : (s.device_states.any fun p =>
      p.2.isStale (cfg.pollInterval * 2) now) = false :=
    any_eq_false_of _ _ hfresh
  have hsp : shouldPoll cfg s now = false := by
    unfold shouldPoll
    split
    · rfl
    · rw [hrec, hstale]
      rfl
  unfold pollTick
  rw [hsp]
  rfl

/-- C6 witness: one tracked device, fresh and not stale — the poll run
issues no query. -/
theorem poll_tick_suppression_witness :
    pollTick ⟨30, 56, true⟩
        ⟨[(1, ⟨1, 255, true, 90, .cbus, 0, 90, false, false⟩)], 0, 0⟩ 100 =
      (⟨[(1, ⟨1, 255, true, 90, .cbus, 0, 90, false, false⟩)], 0, 0⟩, []) :=
  poll_tick_suppression ⟨30, 56, true⟩
    ⟨[(1, ⟨1, 255, true, 90, .cbus, 0, 90, false, false⟩)], 0, 0⟩ 100
    (by decide) (by decide)

/-- C8 counterexample: a structured JSON payload with `brightness: 300` is
accepted and forwards level 300, outside `[0, 255]` — the JSON branch of
`_handle_device_command` does not clamp. -/
theorem command_level_json_counterexample :
    parseCommandLevel (CommandPayload.jsonPayload (some 300) none) = some 300 ∧
    ¬((300 : Int) ≤ 255) := by
  decide

/-- C8 (amended): on-words forward 255, off-words 0, and bare numeric
payloads are clamped into `[0, 255]`; but a structured JSON payload
forwards `brightness` (falling back to `level`, then 0) as-is, without
clamping. -/
theorem command_level_clamped (p : CommandPayload) (lvl : Int)
    (h : parseCommandLevel p = some lvl) :
    (p = CommandPayload.onWord → lvl = 255) ∧
    (p = CommandPayload.offWord → lvl = 0) ∧
    (∀ n, p = CommandPayload.numeric n → 0 ≤ lvl ∧ lvl ≤ 255) ∧
    (∀ b l2, p = CommandPayload.jsonPayload b l2 → lvl = b.getD (l2.getD 0)) := by
  refine ⟨?_, ?_, ?_, ?_⟩
  · rintro rfl
    exact (Option.some.inj h).symm
  · rintro rfl
    exact (Option.some.inj h).symm
  · rintro n rfl
    have hval : max 0 (min 255 n) = lvl := Option.some.inj h
    constructor
    · rw [← hval]
      exact le_max_left _ _
    · rw [← hval]
      exact max_le (by norm_num) (min_le_left _ _)
  · rintro b l2 rfl
    exact (Option.some.inj h).symm

/-- C8 witness: the numeric payload 999 is clamped to 255, which lies in
the valid range. -/
theorem command_level_clamped_witness :
    parseCommandLevel (CommandPayload.numeric 999) = some 255 ∧
    (0 : Int) ≤ 255 ∧ (255 : Int) ≤ 255 :=
  ⟨by decide,
   ((command_level_clamped (CommandPayload.numeric 999) 255 (by decide)).2.2.1
     999 rfl).1,
   ((command_level_clamped (CommandPayload.numeric 999) 255 (by decide)).2.2.1
     999 rfl).2⟩

/-- C9 counterexample: when the connection's close itself fails,
`disconnect` swallows the exception but the assignments inside the `try`
are skipped, so the connected flag stays `true` — refuting "always clears
connected flag". -/
theorem disconnect_counterexample :
    disconnect true ⟨true, true⟩ = Except.ok ⟨true, true⟩ ∧
    (⟨true, true⟩ : IfaceState).connected = true :=
  ⟨rfl, rfl⟩

/-- C9 (amended): `disconnect` never raises to its caller; the connected
flag is cleared when the interface was already disconnected or the close
succeeds, but a failing close leaves the flag (and connection) as they
were — afterwards `connected = (connected ∧ connection present ∧ close
failed)`. -/
theorem disconnect_never_raises (f : Bool) (s : IfaceState) :
    ∃ s2, disconnect f s = Except.ok s2 ∧
      s2.connected = (s.connected && s.hasConnection && f) := by
  obtain ⟨c, hc⟩ := s
  cases c <;> cases hc <;> cases f <;> exact ⟨_, rfl, rfl⟩

end MQTTWD
